import Mathlib

/-!
# Verification of the Lux environment wrapper chain

Shallow embedding of `src/lux_ai/lux_gym/wrappers.py`: the board padder
(`PadEnv`), the telemetry collector (`LoggingEnv`), the vectorizer (`VecEnv`)
and the result flattener (`DictEnv`).  Numpy arrays are modelled as a shape
(list of dimension sizes) together with a total valuation on index lists;
Python dictionaries are modelled as association lists with first-match lookup;
a call that raises an exception is modelled by `Except PyErr`.
-/

namespace LuxWrappers

/-- The Python exceptions that the wrapper code can raise. -/
inductive PyErr where
  | assertionError
  | keyError
  | indexError
  | valueError
deriving DecidableEq, Repr

/-- A numpy-style n-dimensional array: a shape together with a total
valuation on index lists.  Only indices within the shape's bounds are
meaningful; operations below keep valuations canonical (zero outside the
region they define) so that plain equality can be used. -/
@[ext]
structure NDArray where
  shape : List Nat
  val : List Nat → Int

/-- Placeholder array used as the default of `exOk`. -/
def dummyArr : NDArray := ⟨[], fun _ => 0⟩

/-- Extract the payload of a successful computation, with a default. -/
def exOk (e : Except PyErr α) (d : α) : α :=
  match e with
  | .ok a => a
  | .error _ => d

/-- Whether a computation succeeded. -/
def exIsOk (e : Except PyErr α) : Bool :=
  match e with
  | .ok _ => true
  | .error _ => false

/-- A Python dictionary whose values are arrays, as an association list. -/
abbrev Dict := List (String × NDArray)

/-- Error-propagating map over a list (the semantics of running a Python
comprehension whose body may raise). -/
def mapME (f : α → Except PyErr β) : List α → Except PyErr (List β)
  | [] => .ok []
  | x :: xs => do
    let y ← f x
    let ys ← mapME f xs
    pure (y :: ys)

/-- Python's `shape[-2:]`: the trailing (at most) two dimensions. -/
def last2 (s : List Nat) : List Nat :=
  s.drop (s.length - 2)

/-! ## PadEnv (wrappers.py lines 10-60) -/

/-- The configuration of a `PadEnv`: `max_board_size` and the inner
environment's `board_dims` (`orig_board_dims`), as four sizes. -/
structure PadCfg where
  max0 : Nat
  max1 : Nat
  orig0 : Nat
  orig1 : Nat
deriving DecidableEq, Repr

/-- `np.pad(arr, pad_width=((0,0),(0,0),(0,d2),(0,d3)), constant_values=0)`:
defined on 4-dimensional arrays only (numpy rejects a 4-entry `pad_width`
on any other rank); the padded region holds zeros. -/
def padArr (d2 d3 : Nat) (a : NDArray) : Except PyErr NDArray :=
  match a.shape with
  | [s0, s1, s2, s3] => .ok
      { shape := [s0, s1, s2 + d2, s3 + d3]
        val := fun ix =>
          match ix with
          | [i, j, k, l] => if k < s2 ∧ l < s3 then a.val [i, j, k, l] else 0
          | _ => 0 }
  | _ => .error .valueError

/-- `PadEnv.pad_width` (trailing two entries; the leading two are `(0,0)`):
`(max_board_size[0] - orig_board_dims[0], max_board_size[1] - orig_board_dims[1])`.
A negative entry makes `np.pad` raise. -/
def pad_width (c : PadCfg) : Except PyErr (Nat × Nat) :=
  if c.orig0 ≤ c.max0 ∧ c.orig1 ≤ c.max1 then
    .ok (c.max0 - c.orig0, c.max1 - c.orig1)
  else .error .valueError

/-- `PadEnv._pad(arr)`. -/
def padC (c : PadCfg) (a : NDArray) : Except PyErr NDArray := do
  let w ← pad_width c
  padArr w.1 w.2 a

/-- Cropping on the trailing two axes: the shape part of `val[..., :r0, :r1]`
(Python slices clamp at the axis length). -/
def cropShape (r0 r1 : Nat) (s : List Nat) : List Nat :=
  match s.reverse with
  | l :: k :: rest => ((min l r1) :: (min k r0) :: rest).reverse
  | _ => s

/-- `val[..., :r0, :r1]`, as performed on each action entry by
`PadEnv.step`. -/
def cropArr (r0 r1 : Nat) (a : NDArray) : NDArray :=
  { shape := cropShape r0 r1 a.shape, val := a.val }

/-- The mask written by `PadEnv.__init__` (lines 15-16):
`input_mask = zeros((1,) + max_board_size)`, then
`input_mask[:, :orig0, :orig1] = 1`. -/
def init_mask (c : PadCfg) : NDArray :=
  { shape := [1, c.max0, c.max1]
    val := fun ix =>
      match ix with
      | [_, i, j] => if i < c.orig0 ∧ j < c.orig1 then 1 else 0
      | _ => 0 }

/-- The mask as recomputed by `PadEnv.reset` (lines 38-39):
`input_mask[:] = 0`, then `input_mask[:, orig0, :orig1] = 1` — note the
integer index `orig0` on the row axis (no slice), which selects the single
row `orig0` and raises `IndexError` when `orig0 ≥ max0`. -/
def reset_mask (c : PadCfg) : Except PyErr NDArray :=
  if c.orig0 < c.max0 then
    .ok { shape := [1, c.max0, c.max1]
          val := fun ix =>
            match ix with
            | [_, i, j] => if i = c.orig0 ∧ j < c.orig1 then 1 else 0
            | _ => 0 }
  else .error .indexError

/-- The body applied to each info entry by `PadEnv.info` (line 29):
pad when the trailing two dimensions equal `orig_board_dims`, else pass
through. -/
def padEntry (c : PadCfg) (v : NDArray) : Except PyErr NDArray :=
  if last2 v.shape = [c.orig0, c.orig1] then padC c v else .ok v

/-- `PadEnv.info(info)` (lines 26-34): rebuild the mapping entry by entry
(padding the matching ones), assert that `"input_mask"` is absent, then add
the mask. -/
def padInfo (c : PadCfg) (mask : NDArray) (info : Dict) : Except PyErr Dict := do
  let info2 ← mapME (fun kv => do
      let v ← padEntry c kv.2
      pure (kv.1, v)) info
  if (info2.map Prod.fst).contains "input_mask" then .error .assertionError
  else pure (info2 ++ [("input_mask", mask)])

/-! ## LoggingEnv (wrappers.py lines 63-93) -/

/-- The simulation state attributes read by `LoggingEnv.info`: the turn and
the per-player counts, in player order. -/
structure GameState where
  turn : Int
  city_tile_counts : List Int
  city_counts : List Int
  worker_counts : List Int
  cart_counts : List Int
  research_point_counts : List Int

/-- `np.array(val)` for a plain list of numbers: a 1-dimensional array. -/
def listToArr (l : List Int) : NDArray :=
  { shape := [l.length]
    val := fun ix =>
      match ix with
      | [i] => l.getD i 0
      | _ => 0 }

/-- The `logs` dictionary built by `LoggingEnv.info` (lines 73-80). -/
def loggingLogs (gs : GameState) : List (String × List Int) :=
  [("step", [gs.turn]),
   ("city_tiles", gs.city_tile_counts),
   ("separate_cities", gs.city_counts),
   ("workers", gs.worker_counts),
   ("carts", gs.cart_counts),
   ("research_points", gs.research_point_counts)]

/-- `np.maximum` on two equally long vectors. -/
def npMaximum (a b : List Int) : List Int :=
  List.zipWith max a b

/-- Python's `dict.update`: existing keys keep their position but take the
new value; genuinely new keys are appended. -/
def dictUpdate {β : Type} (d upd : List (String × β)) : List (String × β) :=
  d.map (fun kv =>
    match List.lookup kv.1 upd with
    | some v => (kv.1, v)
    | none => kv)
  ++ upd.filter (fun kv => (List.lookup kv.1 d).isNone)

/-- `LoggingEnv.info(info)` (lines 70-84): build `logs`, update the running
peak via `logs["n_city_tiles"]` — a key that was never stored (the metric
lives under `"city_tiles"`), so the subscript raises `KeyError` — then write
the `logging_`-prefixed entries into a copy of `info` with `dict.update`.
Returns the new peak vector together with the extended mapping. -/
def loggingInfo (peak : List Int) (gs : GameState) (info : Dict) :
    Except PyErr (List Int × Dict) :=
  let logs := loggingLogs gs
  match List.lookup "n_city_tiles" logs with
  | none => .error .keyError
  | some v =>
    let peak2 := npMaximum peak v
    let logs2 := logs ++ [("peak_city_tiles", peak2)]
    .ok (peak2, dictUpdate info (logs2.map (fun kv => ("logging_" ++ kv.1, listToArr kv.2))))

/-- `LoggingEnv.reset` (lines 86-89): re-initialize every entry of the peak
vector to the floor value 1, then report through `LoggingEnv.info`. -/
def loggingReset (peak : List Int) (gs : GameState) (info : Dict) :
    Except PyErr (List Int × Dict) :=
  loggingInfo (peak.map (fun _ => 1)) gs info

/-! ## Generic lemmas about `Except`, lookups and `mapME` -/

/-- Binding a success runs the continuation. -/
theorem bindE_ok {α β : Type} (a : α) (f : α → Except PyErr β) :
    (Except.ok a : Except PyErr α) >>= f = f a := rfl

/-- Binding a `pure` runs the continuation. -/
theorem bindE_pure {α β : Type} (a : α) (f : α → Except PyErr β) :
    (pure a : Except PyErr α) >>= f = f a := rfl

/-- Binding an error propagates it. -/
theorem bindE_error {α β : Type} (e : PyErr) (f : α → Except PyErr β) :
    (Except.error e : Except PyErr α) >>= f = Except.error e := rfl

/-- First-match lookup on a cons cell. -/
theorem lookup_cons {β : Type} (k k0 : String) (v0 : β) (l : List (String × β)) :
    List.lookup k ((k0, v0) :: l) = if k = k0 then some v0 else List.lookup k l := by
  by_cases h : k = k0
  · subst h; simp [List.lookup]
  · have hb : (k == k0) = false := beq_eq_false_iff_ne.mpr h
    simp [List.lookup, hb, h]

/-- A successful lookup names an entry of the list. -/
theorem mem_of_lookup_eq_some {β : Type} {k : String} {v : β} {l : List (String × β)}
    (h : List.lookup k l = some v) : (k, v) ∈ l := by
  induction l with
  | nil => simp [List.lookup] at h
  | cons kv rest ih =>
    obtain ⟨k0, v0⟩ := kv
    rw [lookup_cons] at h
    by_cases hk : k = k0
    · rw [if_pos hk] at h
      obtain rfl : v0 = v := Option.some.inj h
      subst hk
      exact List.mem_cons_self _ _
    · rw [if_neg hk] at h
      exact List.mem_cons_of_mem _ (ih h)

/-- Lookup through an append prefers the left list. -/
theorem lookup_append_left {β : Type} {k : String} {v : β} {l1 : List (String × β)}
    (l2 : List (String × β)) (h : List.lookup k l1 = some v) :
    List.lookup k (l1 ++ l2) = some v := by
  induction l1 with
  | nil => simp [List.lookup] at h
  | cons kv rest ih =>
    obtain ⟨k0, v0⟩ := kv
    rw [lookup_cons] at h
    rw [List.cons_append, lookup_cons]
    by_cases hk : k = k0
    · rwa [if_pos hk] at h ⊢
    · rw [if_neg hk] at h ⊢
      exact ih h

/-- A key-preserving `mapME` over an association list preserves the key
sequence. -/
theorem mapME_keyed_keys {β γ : Type} (g : String → β → Except PyErr γ) :
    ∀ (l : List (String × β)) (l2 : List (String × γ)),
      mapME (fun kv => do
        let v ← g kv.1 kv.2
        pure (kv.1, v)) l = .ok l2 →
      l2.map Prod.fst = l.map Prod.fst := by
  intro l
  induction l with
  | nil =>
    intro l2 h
    obtain rfl : ([] : List (String × γ)) = l2 := Except.ok.inj h
    rfl
  | cons kv rest ih =>
    intro l2 h
    obtain ⟨k0, v0⟩ := kv
    simp only [mapME] at h
    cases hg : g k0 v0 with
    | error e =>
      rw [hg, bindE_error, bindE_error] at h
      exact absurd h (fun hc => Except.noConfusion hc)
    | ok y =>
      rw [hg, bindE_ok, bindE_pure] at h
      cases hr : mapME (fun kv => do
          let v ← g kv.1 kv.2
          pure (kv.1, v)) rest with
      | error e =>
        rw [hr, bindE_error] at h
        exact absurd h (fun hc => Except.noConfusion hc)
      | ok ys =>
        rw [hr, bindE_ok] at h
        obtain rfl : (k0, y) :: ys = l2 := Except.ok.inj h
        simp only [List.map_cons]
        rw [ih ys hr]

/-- A key-preserving `mapME` over an association list transforms lookups
entrywise. -/
theorem mapME_keyed_lookup {β γ : Type} (g : String → β → Except PyErr γ) :
    ∀ (l : List (String × β)) (l2 : List (String × γ)),
      mapME (fun kv => do
        let v ← g kv.1 kv.2
        pure (kv.1, v)) l = .ok l2 →
      ∀ k v, List.lookup k l = some v →
        ∃ v2, g k v = .ok v2 ∧ List.lookup k l2 = some v2 := by
  intro l
  induction l with
  | nil => intro l2 h k v hk; simp [List.lookup] at hk
  | cons kv rest ih =>
    intro l2 h k v hk
    obtain ⟨k0, v0⟩ := kv
    simp only [mapME] at h
    cases hg : g k0 v0 with
    | error e =>
      rw [hg, bindE_error, bindE_error] at h
      exact absurd h (fun hc => Except.noConfusion hc)
    | ok y =>
      rw [hg, bindE_ok, bindE_pure] at h
      cases hr : mapME (fun kv => do
          let v ← g kv.1 kv.2
          pure (kv.1, v)) rest with
      | error e =>
        rw [hr, bindE_error] at h
        exact absurd h (fun hc => Except.noConfusion hc)
      | ok ys =>
        rw [hr, bindE_ok] at h
        obtain rfl : (k0, y) :: ys = l2 := Except.ok.inj h
        rw [lookup_cons] at hk
        by_cases hkk : k = k0
        · rw [if_pos hkk] at hk
          obtain rfl : v0 = v := Option.some.inj hk
          subst hkk
          exact ⟨y, hg, by rw [lookup_cons, if_pos rfl]⟩
        · rw [if_neg hkk] at hk
          obtain ⟨v2, hgv, hl⟩ := ih ys hr k v hk
          exact ⟨v2, hgv, by rw [lookup_cons, if_neg hkk]; exact hl⟩

/-! ## Claim C1: the mask recomputed on reset -/

/-- C1 (code bug): the claim says that after `PadEnv.reset` the mask is 1
exactly on `[0, orig_rows) × [0, orig_cols)`.  The reset code drops the
colon of `__init__`'s row slice (`input_mask[:, orig0, :orig1] = 1`), so for
`max_board_size = (4,4)` and `orig_board_dims = (2,3)` the cell `(0,0)`
inside the claimed region holds 0 while the cell `(2,0)` outside it holds 1;
`__init__`'s own mask agrees with the claim at `(0,0)`.  When
`orig_rows = max_rows` the reset even raises `IndexError`. -/
theorem c1_reset_mask_row_only :
    exIsOk (reset_mask ⟨4, 4, 2, 3⟩) = true ∧
    (exOk (reset_mask ⟨4, 4, 2, 3⟩) dummyArr).val [0, 0, 0] = 0 ∧
    (exOk (reset_mask ⟨4, 4, 2, 3⟩) dummyArr).val [0, 2, 0] = 1 ∧
    (init_mask ⟨4, 4, 2, 3⟩).val [0, 0, 0] = 1 ∧
    reset_mask ⟨4, 4, 4, 3⟩ = Except.error PyErr.indexError :=
  ⟨rfl, rfl, rfl, rfl, rfl⟩

/-! ## Claim C5: pad / crop / pad round trip -/

/-- `padArr` on an explicitly 4-dimensional array, by computation. -/
theorem padArr_four (d2 d3 s0 s1 s2 s3 : Nat) (v : List Nat → Int) :
    padArr d2 d3 ⟨[s0, s1, s2, s3], v⟩ = .ok
      { shape := [s0, s1, s2 + d2, s3 + d3]
        val := fun ix =>
          match ix with
          | [i, j, k, l] => if k < s2 ∧ l < s3 then v [i, j, k, l] else 0
          | _ => 0 } := rfl

/-- `cropShape` on a 4-entry shape, by computation. -/
theorem cropShape_four (r0 r1 s0 s1 s2 s3 : Nat) :
    cropShape r0 r1 [s0, s1, s2, s3] = [s0, s1, min s2 r0, min s3 r1] := rfl

/-- `PadEnv._pad` on a 4-dimensional array whose trailing two dimensions are
the original board dimensions, when the board fits in the padded size. -/
theorem padC_four (c : PadCfg) (h0 : c.orig0 ≤ c.max0) (h1 : c.orig1 ≤ c.max1)
    (s0 s1 : Nat) (v : List Nat → Int) :
    padC c ⟨[s0, s1, c.orig0, c.orig1], v⟩ = .ok
      { shape := [s0, s1, c.orig0 + (c.max0 - c.orig0), c.orig1 + (c.max1 - c.orig1)]
        val := fun ix =>
          match ix with
          | [i, j, k, l] => if k < c.orig0 ∧ l < c.orig1 then v [i, j, k, l] else 0
          | _ => 0 } := by
  have hw : pad_width c = .ok (c.max0 - c.orig0, c.max1 - c.orig1) := by
    simp [pad_width, h0, h1]
  unfold padC
  rw [hw]
  exact padArr_four (c.max0 - c.orig0) (c.max1 - c.orig1) s0 s1 c.orig0 c.orig1 v

/-- C5: for a 4-dimensional array whose trailing two dimensions equal the
original board size, `PadEnv._pad` succeeds, cropping the padded array as
`PadEnv.step` crops actions and padding again returns exactly the first
padded array, and the padded region holds only zeros. -/
theorem c5_pad_crop_pad (c : PadCfg) (a : NDArray) (s0 s1 : Nat)
    (hsh : a.shape = [s0, s1, c.orig0, c.orig1])
    (h0 : c.orig0 ≤ c.max0) (h1 : c.orig1 ≤ c.max1) :
    exIsOk (padC c a) = true ∧
    padC c (cropArr c.orig0 c.orig1 (exOk (padC c a) dummyArr)) = padC c a ∧
    (∀ i j k l, c.orig0 ≤ k ∨ c.orig1 ≤ l →
      (exOk (padC c a) dummyArr).val [i, j, k, l] = 0) := by
  obtain ⟨sh, v⟩ := a
  have hsh' : sh = [s0, s1, c.orig0, c.orig1] := hsh
  subst hsh'
  have hpad : padC c ⟨[s0, s1, c.orig0, c.orig1], v⟩ = .ok
      { shape := [s0, s1, c.orig0 + (c.max0 - c.orig0), c.orig1 + (c.max1 - c.orig1)]
        val := fun ix =>
          match ix with
          | [i, j, k, l] => if k < c.orig0 ∧ l < c.orig1 then v [i, j, k, l] else 0
          | _ => 0 } := padC_four c h0 h1 s0 s1 v
  refine ⟨by rw [hpad]; rfl, ?_, ?_⟩
  · rw [hpad]
    have hm0 : min (c.orig0 + (c.max0 - c.orig0)) c.orig0 = c.orig0 :=
      min_eq_right (Nat.le_add_right _ _)
    have hm1 : min (c.orig1 + (c.max1 - c.orig1)) c.orig1 = c.orig1 :=
      min_eq_right (Nat.le_add_right _ _)
    have hcrop : cropArr c.orig0 c.orig1 (exOk (Except.ok
        { shape := [s0, s1, c.orig0 + (c.max0 - c.orig0), c.orig1 + (c.max1 - c.orig1)]
          val := fun ix =>
            match ix with
            | [i, j, k, l] => if k < c.orig0 ∧ l < c.orig1 then v [i, j, k, l] else 0
            | _ => 0 } : Except PyErr NDArray) dummyArr) =
        { shape := [s0, s1, c.orig0, c.orig1]
          val := fun ix =>
            match ix with
            | [i, j, k, l] => if k < c.orig0 ∧ l < c.orig1 then v [i, j, k, l] else 0
            | _ => 0 } := by
      simp only [cropArr, exOk, cropShape_four, hm0, hm1]
    rw [hcrop]
    rw [padC_four c h0 h1 s0 s1]
    apply congrArg Except.ok
    apply NDArray.ext
    · rfl
    funext ix
    rcases ix with _ | ⟨i, ix⟩
    · rfl
    rcases ix with _ | ⟨j, ix⟩
    · rfl
    rcases ix with _ | ⟨k, ix⟩
    · rfl
    rcases ix with _ | ⟨l, ix⟩
    · rfl
    rcases ix with _ | ⟨m, ix⟩
    · by_cases hc : k < c.orig0 ∧ l < c.orig1 <;> simp [hc]
    · rfl
  · intro i j k l hkl
    rw [hpad]
    have hc : ¬(k < c.orig0 ∧ l < c.orig1) := by omega
    simp [exOk, hc]

/-- Concrete configuration for the C5 witness. -/
def cW5 : PadCfg := ⟨3, 4, 1, 2⟩

/-- Concrete array for the C5 witness. -/
def aW5 : NDArray := ⟨[1, 1, 1, 2], fun _ => 5⟩

/-- C5 witness: the round trip at a concrete configuration and array. -/
theorem c5_pad_crop_pad_witness :
    aW5.shape = [1, 1, 1, 2] ∧ cW5.orig0 ≤ cW5.max0 ∧ cW5.orig1 ≤ cW5.max1 ∧
    exIsOk (padC cW5 aW5) = true ∧
    padC cW5 (cropArr cW5.orig0 cW5.orig1 (exOk (padC cW5 aW5) dummyArr)) = padC cW5 aW5 ∧
    (exOk (padC cW5 aW5) dummyArr).val [0, 0, 1, 0] = 0 :=
  ⟨rfl, by decide, by decide,
    (c5_pad_crop_pad cW5 aW5 1 1 rfl (by decide) (by decide)).1,
    (c5_pad_crop_pad cW5 aW5 1 1 rfl (by decide) (by decide)).2.1,
    (c5_pad_crop_pad cW5 aW5 1 1 rfl (by decide) (by decide)).2.2 0 0 1 0 (Or.inl (by decide))⟩

/-! ## Claim C2: the telemetry collector's running peak -/

/-- C2 (code bug): the claim says every step and reset of `LoggingEnv`
completes and reports `logging_peak_city_tiles`.  The code stores the
city-tile counts under the key `"city_tiles"` but reads them back as
`logs["n_city_tiles"]`, so every call of `LoggingEnv.info` — hence every
step and every reset — raises `KeyError` and never returns. -/
theorem c2_logging_info_key_error (peak : List Int) (gs : GameState) (info : Dict) :
    loggingInfo peak gs info = Except.error PyErr.keyError ∧
    loggingReset peak gs info = Except.error PyErr.keyError :=
  ⟨rfl, rfl⟩

/-! ## Claim C7: info entries through the board padder -/

/-- C7: when `PadEnv.info` completes, an input entry whose trailing two
dimensions equal the original board dimensions appears in the output padded
by `PadEnv._pad` exactly as observations are, and any other input entry
appears unchanged. -/
theorem c7_pad_info_entries (c : PadCfg) (mask : NDArray) (info : Dict)
    (k : String) (v : NDArray)
    (hk : List.lookup k info = some v)
    (hok : exIsOk (padInfo c mask info) = true) :
    (last2 v.shape = [c.orig0, c.orig1] →
      exIsOk (padC c v) = true ∧
      List.lookup k (exOk (padInfo c mask info) []) = some (exOk (padC c v) dummyArr)) ∧
    (last2 v.shape ≠ [c.orig0, c.orig1] →
      List.lookup k (exOk (padInfo c mask info) []) = some v) := by
  cases hm : mapME (fun kv => do
      let v ← padEntry c kv.2
      pure (kv.1, v)) info with
  | error e =>
    unfold padInfo at hok
    rw [hm, bindE_error] at hok
    exact absurd hok (by simp [exIsOk])
  | ok info2 =>
    have hpi0 : padInfo c mask info =
        (if (info2.map Prod.fst).contains "input_mask" then Except.error PyErr.assertionError
          else pure (info2 ++ [("input_mask", mask)])) := by
      unfold padInfo
      rw [hm, bindE_ok]
    cases hc : (info2.map Prod.fst).contains "input_mask" with
    | true =>
      rw [hpi0, if_pos hc] at hok
      exact absurd hok (by simp [exIsOk])
    | false =>
      have hpi : padInfo c mask info = .ok (info2 ++ [("input_mask", mask)]) := by
        rw [hpi0,
          if_neg (show ¬((info2.map Prod.fst).contains "input_mask" = true) from by
            rw [hc]; exact Bool.false_ne_true)]
        rfl
      obtain ⟨v2, hgv, hl⟩ :=
        mapME_keyed_lookup (fun _ w => padEntry c w) info info2 hm k v hk
      constructor
      · intro htr
        rw [padEntry, if_pos htr] at hgv
        refine ⟨by rw [hgv]; rfl, ?_⟩
        rw [hpi]
        have : exOk (Except.ok (info2 ++ [("input_mask", mask)]) : Except PyErr Dict) [] =
            info2 ++ [("input_mask", mask)] := rfl
        rw [this]
        rw [show exOk (padC c v) dummyArr = v2 from by rw [hgv]; rfl]
        exact lookup_append_left _ hl
      · intro htr
        rw [padEntry, if_neg htr] at hgv
        obtain rfl : v = v2 := Except.ok.inj hgv
        rw [hpi]
        exact lookup_append_left _ hl

/-- Concrete configuration for the C7 witness. -/
def cW7 : PadCfg := ⟨2, 2, 1, 1⟩

/-- Concrete matching entry for the C7 witness. -/
def aW7 : NDArray := ⟨[1, 1, 1, 1], fun _ => 7⟩

/-- Concrete non-matching entry for the C7 witness. -/
def bW7 : NDArray := ⟨[3], fun _ => 2⟩

/-- Concrete info mapping for the C7 witness. -/
def infoW7 : Dict := [("a", aW7), ("b", bW7)]

/-- C7 witness: a matching entry is padded and a non-matching entry passes
through at a concrete configuration. -/
theorem c7_pad_info_entries_witness :
    List.lookup "a" infoW7 = some aW7 ∧
    List.lookup "b" infoW7 = some bW7 ∧
    exIsOk (padInfo cW7 (init_mask cW7) infoW7) = true ∧
    last2 aW7.shape = [cW7.orig0, cW7.orig1] ∧
    exIsOk (padC cW7 aW7) = true ∧
    List.lookup "a" (exOk (padInfo cW7 (init_mask cW7) infoW7) []) =
      some (exOk (padC cW7 aW7) dummyArr) ∧
    List.lookup "b" (exOk (padInfo cW7 (init_mask cW7) infoW7) []) = some bW7 :=
  ⟨rfl, rfl, rfl, rfl,
    ((c7_pad_info_entries cW7 (init_mask cW7) infoW7 "a" aW7 rfl rfl).1 rfl).1,
    ((c7_pad_info_entries cW7 (init_mask cW7) infoW7 "a" aW7 rfl rfl).1 rfl).2,
    (c7_pad_info_entries cW7 (init_mask cW7) infoW7 "b" bW7 rfl rfl).2 (by decide)⟩

/-! ## Claim C8: duplicate info keys across the two extending wrappers -/

/-- Concrete game state for the C8 counterexample. -/
def gsW8 : GameState := ⟨0, [0, 0], [0, 0], [0, 0], [0, 0], [0, 0]⟩

/-- An info mapping that already holds a `logging_`-prefixed key. -/
def infoDupW8 : Dict := [("logging_step", ⟨[1], fun _ => 9⟩)]

/-- C8 counterexample: the claim says the telemetry collector treats adding
an already-present key as a contract (assertion) failure.  On an incoming
mapping that already holds `"logging_step"`, `LoggingEnv.info` raises
`KeyError` (the `"n_city_tiles"` lookup slip) — not an assertion failure:
it performs no duplicate-key check at all. -/
theorem c8_dup_keys_counterexample :
    loggingInfo [1, 1] gsW8 infoDupW8 = Except.error PyErr.keyError ∧
    loggingInfo [1, 1] gsW8 infoDupW8 ≠ Except.error PyErr.assertionError := by
  refine ⟨rfl, fun h => ?_⟩
  rw [show loggingInfo [1, 1] gsW8 infoDupW8 = Except.error PyErr.keyError from rfl] at h
  exact PyErr.noConfusion (Except.error.inj h)

/-- C8 (amended): only the board padder guards against duplicate keys:
when the incoming mapping already holds `"input_mask"` (and its entries
process without a shape error, which happens first), `PadEnv.info` aborts
with an assertion failure.  The telemetry collector has no duplicate-key
check; its `info` aborts on every call with `KeyError` because of the
`"n_city_tiles"` slip, never with an assertion failure, and its
`dict.update` would otherwise overwrite silently. -/
theorem c8_dup_keys_amended :
    (∀ (c : PadCfg) (mask : NDArray) (info : Dict),
      (info.map Prod.fst).contains "input_mask" = true →
      exIsOk (mapME (fun kv => do
        let v ← padEntry c kv.2
        pure (kv.1, v)) info) = true →
      padInfo c mask info = Except.error PyErr.assertionError) ∧
    (∀ (peak : List Int) (gs : GameState) (info : Dict),
      loggingInfo peak gs info = Except.error PyErr.keyError) := by
  constructor
  · intro c mask info hdup hok
    cases hm : mapME (fun kv => do
        let v ← padEntry c kv.2
        pure (kv.1, v)) info with
    | error e =>
      rw [hm] at hok
      exact absurd hok (by simp [exIsOk])
    | ok info2 =>
      have hkeys : info2.map Prod.fst = info.map Prod.fst :=
        mapME_keyed_keys (fun _ w => padEntry c w) info info2 hm
      unfold padInfo
      rw [hm, bindE_ok, if_pos (by rw [hkeys]; exact hdup)]
  · intro peak gs info
    rfl

/-- Concrete configuration for the C8 witness. -/
def cW8 : PadCfg := ⟨2, 2, 1, 1⟩

/-- An info mapping that already holds `"input_mask"`. -/
def infoW8 : Dict := [("input_mask", ⟨[1], fun _ => 0⟩)]

/-- C8 witness: the board padder's assertion fires on a concrete duplicate
`"input_mask"` key, and the telemetry collector's key-lookup error fires on
a concrete call. -/
theorem c8_dup_keys_amended_witness :
    (infoW8.map Prod.fst).contains "input_mask" = true ∧
    exIsOk (mapME (fun kv => do
      let v ← padEntry cW8 kv.2
      pure (kv.1, v)) infoW8) = true ∧
    padInfo cW8 dummyArr infoW8 = Except.error PyErr.assertionError ∧
    loggingInfo [1, 1] gsW8 [] = Except.error PyErr.keyError :=
  ⟨rfl, rfl, c8_dup_keys_amended.1 cW8 dummyArr infoW8 rfl rfl,
    c8_dup_keys_amended.2 [1, 1] gsW8 []⟩

/-! ## DictEnv (wrappers.py lines 183-201) -/

/-- A step/reset result tuple `(obs, reward, done, info)`. -/
structure EnvOut where
  obs : Dict
  reward : Int
  done : Bool
  info : Dict

/-- The value of one entry of the flattened mapping built by
`DictEnv._dict_env_out`: the observation mapping, the reward, the done flag,
or an info array. -/
inductive DVal where
  | obsV (o : Dict)
  | rewardV (r : Int)
  | doneV (d : Bool)
  | arrV (a : NDArray)

/-- Lookup through a value-mapping of an association list. -/
theorem lookup_map_val {β γ : Type} (f : β → γ) (k : String) :
    ∀ l : List (String × β),
      List.lookup k (l.map (fun kv => (kv.1, f kv.2))) = (List.lookup k l).map f := by
  intro l
  induction l with
  | nil => rfl
  | cons kv rest ih =>
    obtain ⟨k0, v0⟩ := kv
    simp only [List.map_cons]
    rw [lookup_cons, lookup_cons]
    by_cases hk : k = k0
    · rw [if_pos hk, if_pos hk]; rfl
    · rw [if_neg hk, if_neg hk]; exact ih

/-- `DictEnv._dict_env_out(env_out)`: assert that `info` holds none of
`"obs"`, `"reward"`, `"done"`, then merge everything into one mapping. -/
def dict_env_out (out : EnvOut) : Except PyErr (List (String × DVal)) :=
  if "obs" ∈ out.info.map Prod.fst then .error .assertionError
  else if "reward" ∈ out.info.map Prod.fst then .error .assertionError
  else if "done" ∈ out.info.map Prod.fst then .error .assertionError
  else .ok (("obs", .obsV out.obs) :: ("reward", .rewardV out.reward) ::
    ("done", .doneV out.done) :: out.info.map (fun kv => (kv.1, .arrV kv.2)))

/-! ## Claim C6: the result flattener's contract -/

/-- C6: `DictEnv._dict_env_out` fails with an assertion error as soon as
`info` holds one of the keys `"obs"`, `"reward"`, `"done"`; otherwise it
returns one mapping holding the observation under `"obs"`, the reward under
`"reward"`, the done flag under `"done"`, and every info entry under its own
key. -/
theorem c6_dict_env_out (out : EnvOut) :
    (("obs" ∈ out.info.map Prod.fst ∨ "reward" ∈ out.info.map Prod.fst ∨
      "done" ∈ out.info.map Prod.fst) →
      dict_env_out out = Except.error PyErr.assertionError) ∧
    (("obs" ∉ out.info.map Prod.fst ∧ "reward" ∉ out.info.map Prod.fst ∧
      "done" ∉ out.info.map Prod.fst) →
      exIsOk (dict_env_out out) = true ∧
      List.lookup "obs" (exOk (dict_env_out out) []) = some (DVal.obsV out.obs) ∧
      List.lookup "reward" (exOk (dict_env_out out) []) = some (DVal.rewardV out.reward) ∧
      List.lookup "done" (exOk (dict_env_out out) []) = some (DVal.doneV out.done) ∧
      (∀ k v, List.lookup k out.info = some v →
        List.lookup k (exOk (dict_env_out out) []) = some (DVal.arrV v))) := by
  constructor
  · intro hcoll
    unfold dict_env_out
    rcases hcoll with h | h | h
    · rw [if_pos h]
    · by_cases h0 : "obs" ∈ out.info.map Prod.fst
      · rw [if_pos h0]
      · rw [if_neg h0, if_pos h]
    · by_cases h0 : "obs" ∈ out.info.map Prod.fst
      · rw [if_pos h0]
      · rw [if_neg h0]
        by_cases h1 : "reward" ∈ out.info.map Prod.fst
        · rw [if_pos h1]
        · rw [if_neg h1, if_pos h]
  · rintro ⟨h0, h1, h2⟩
    have hok : dict_env_out out = .ok (("obs", .obsV out.obs) ::
        ("reward", .rewardV out.reward) :: ("done", .doneV out.done) ::
        out.info.map (fun kv => (kv.1, .arrV kv.2))) := by
      unfold dict_env_out
      rw [if_neg h0, if_neg h1, if_neg h2]
    rw [hok]
    refine ⟨rfl, ?_, ?_, ?_, ?_⟩
    · simp only [exOk]
      rw [lookup_cons, if_pos rfl]
    · simp only [exOk]
      rw [lookup_cons, if_neg (by decide), lookup_cons, if_pos rfl]
    · simp only [exOk]
      rw [lookup_cons, if_neg (by decide), lookup_cons, if_neg (by decide),
        lookup_cons, if_pos rfl]
    · intro k v hkv
      have hmem : k ∈ out.info.map Prod.fst :=
        List.mem_map_of_mem Prod.fst (mem_of_lookup_eq_some hkv)
      have hne0 : k ≠ "obs" := fun hc => h0 (hc ▸ hmem)
      have hne1 : k ≠ "reward" := fun hc => h1 (hc ▸ hmem)
      have hne2 : k ≠ "done" := fun hc => h2 (hc ▸ hmem)
      simp only [exOk]
      rw [lookup_cons, if_neg hne0, lookup_cons, if_neg hne1, lookup_cons, if_neg hne2]
      rw [lookup_map_val]
      rw [hkv]
      rfl

/-- Colliding result for the C6 witness: info already holds `"reward"`. -/
def outColl6 : EnvOut := ⟨[], 0, false, [("reward", ⟨[1], fun _ => 3⟩)]⟩

/-- Info array for the C6 witness. -/
def arrW6 : NDArray := ⟨[2], fun _ => 4⟩

/-- Collision-free result for the C6 witness. -/
def outOk6 : EnvOut := ⟨[("o", ⟨[1], fun _ => 1⟩)], 5, true, [("extra", arrW6)]⟩

/-- C6 witness: a concrete collision aborts, and a concrete collision-free
result is flattened with every component reachable under its key. -/
theorem c6_dict_env_out_witness :
    dict_env_out outColl6 = Except.error PyErr.assertionError ∧
    exIsOk (dict_env_out outOk6) = true ∧
    List.lookup "obs" (exOk (dict_env_out outOk6) []) = some (DVal.obsV outOk6.obs) ∧
    List.lookup "reward" (exOk (dict_env_out outOk6) []) = some (DVal.rewardV outOk6.reward) ∧
    List.lookup "done" (exOk (dict_env_out outOk6) []) = some (DVal.doneV outOk6.done) ∧
    List.lookup "extra" (exOk (dict_env_out outOk6) []) = some (DVal.arrV arrW6) :=
  ⟨(c6_dict_env_out outColl6).1 (Or.inr (Or.inl (by decide))),
   ((c6_dict_env_out outOk6).2 ⟨by decide, by decide, by decide⟩).1,
   ((c6_dict_env_out outOk6).2 ⟨by decide, by decide, by decide⟩).2.1,
   ((c6_dict_env_out outOk6).2 ⟨by decide, by decide, by decide⟩).2.2.1,
   ((c6_dict_env_out outOk6).2 ⟨by decide, by decide, by decide⟩).2.2.2.1,
   ((c6_dict_env_out outOk6).2 ⟨by decide, by decide, by decide⟩).2.2.2.2 "extra" arrW6 rfl⟩

/-! ## VecEnv (wrappers.py lines 96-158) -/

/-- The batched output of `VecEnv._vectorize_env_outs`: stacked observation
arrays, the reward vector, the done vector, and stacked info arrays. -/
structure VecOut where
  obs : Dict
  reward : List Int
  done : List Bool
  info : Dict

/-- Default batched output (used only as an `exOk` fallback). -/
def vecOutDefault : VecOut := ⟨[], [], [], []⟩

/-- Default result tuple (used only as a `getD` fallback). -/
def envOutDefault : EnvOut := ⟨[], 0, false, []⟩

/-- `arr[i]`: indexing a numpy array on its first axis drops that axis. -/
def indexFirst (a : NDArray) (i : Nat) : NDArray :=
  { shape := a.shape.tail, val := fun ix => a.val (i :: ix) }

/-- `np.stack(arrs, axis=0)`: rejects an empty list or unequal shapes,
otherwise creates a new leading axis of length `len(arrs)` with slice `i`
holding `arrs[i]`. -/
def stackArrs (arrs : List NDArray) : Except PyErr NDArray :=
  match arrs with
  | [] => .error .valueError
  | a :: rest =>
    if rest.all (fun b => b.shape == a.shape) then
      .ok { shape := (a :: rest).length :: a.shape
            val := fun ix =>
              match ix with
              | i :: tl => ((a :: rest).getD i dummyArr).val tl
              | [] => 0 }
    else .error .valueError

/-- `d[key]`: Python dict subscription, `KeyError` when the key is absent. -/
def getKey (d : Dict) (k : String) : Except PyErr NDArray :=
  match List.lookup k d with
  | some a => .ok a
  | none => .error .keyError

/-- `np.stack([component(out)[key] for out in env_outs], axis=0)`: the stacked
column of one key across all instances, reading the mappings selected by
`f`. -/
def stackAt (f : EnvOut → Dict) (outs : List EnvOut) (k : String) :
    Except PyErr NDArray := do
  let arrs ← mapME (fun o => getKey (f o) k) outs
  stackArrs arrs

/-- `VecEnv._vectorize_env_outs(env_outs)` (lines 101-112): `zip(*env_outs)`
fails on an empty list; the observation and info mappings are stacked per
key of the first instance; rewards and dones become vectors. -/
def vectorize_env_outs (outs : List EnvOut) : Except PyErr VecOut :=
  match outs with
  | [] => .error .valueError
  | o0 :: _ => do
    let obsS ← mapME (fun kv => do
        let st ← stackAt (fun o => o.obs) outs kv.1
        pure (kv.1, st)) o0.obs
    let infoS ← mapME (fun kv => do
        let st ← stackAt (fun o => o.info) outs kv.1
        pure (kv.1, st)) o0.info
    pure ⟨obsS, outs.map (fun o => o.reward), outs.map (fun o => o.done), infoS⟩

/-- `VecEnv.__init__` (line 99): `last_outs = [() for _ in envs]` — an empty
tuple, holding no recorded result, for every instance. -/
def vecInitLastOuts (n : Nat) : List (Option EnvOut) :=
  List.replicate n none

/-- The selective-update loop of `VecEnv.reset` without `force` (lines
120-124): read each cached result's done flag at tuple index 2 — an
`IndexError` on a fresh `()` — and replace the cached result with the fresh
reset result of that instance when the flag was set. -/
def vecSelect : List (Option EnvOut) → List EnvOut → Except PyErr (List EnvOut)
  | [], _ => .ok []
  | none :: _, _ => .error .indexError
  | some _ :: _, [] => .error .indexError
  | some o :: cs, f :: fs => do
    let rest ← vecSelect cs fs
    pure ((if o.done then f else o) :: rest)

/-- `VecEnv.reset(force)` (lines 114-125), with the fresh result each
instance's reset would produce passed explicitly. -/
def vecReset (force : Bool) (cached : List (Option EnvOut)) (fresh : List EnvOut) :
    Except PyErr VecOut :=
  if force then vectorize_env_outs fresh
  else do
    let outs ← vecSelect cached fresh
    vectorize_env_outs outs

/-- The per-instance slice of the batched action built by `VecEnv.step`
(lines 128-130): `{key: val[i] for key, val in action.items()}`. -/
def sliceAction (action : Dict) (i : Nat) : Dict :=
  action.map (fun kv => (kv.1, indexFirst kv.2 i))

/-- The per-instance results of `VecEnv.step` (line 131): instance `i`,
whose current behaviour is the function `stepFns[i]` from an action to a
result tuple, is stepped on slice `i` of the batched action. -/
def vecStepOuts (stepFns : List (Dict → EnvOut)) (action : Dict) : List EnvOut :=
  (List.range stepFns.length).map
    (fun i => (stepFns.getD i (fun _ => envOutDefault)) (sliceAction action i))

/-- `VecEnv.step(action)` (lines 127-132). -/
def vecStep (stepFns : List (Dict → EnvOut)) (action : Dict) : Except PyErr VecOut :=
  vectorize_env_outs (vecStepOuts stepFns action)

/-- Whether every mapping in the batch holds each key of the first mapping
with an array of the same shape (the caller's precondition for
`np.stack`). -/
def dictsAligned (ds : List Dict) : Bool :=
  match ds with
  | [] => true
  | d0 :: _ => ds.all (fun d => d0.all (fun kv =>
      match List.lookup kv.1 d0, List.lookup kv.1 d with
      | some a0, some a => a.shape == a0.shape
      | _, _ => false))

/-! ## Lemmas about stacking and vectorizing -/

/-- `getD` agrees with `get` inside the bounds. -/
theorem getD_get {α : Type} (d : α) :
    ∀ (l : List α) (i : Nat) (h : i < l.length), l.getD i d = l.get ⟨i, h⟩ := by
  intro l
  induction l with
  | nil => intro i h; exact absurd h (Nat.not_lt_zero i)
  | cons x xs ih =>
    intro i h
    cases i with
    | zero => rfl
    | succ n => exact ih n (Nat.lt_of_succ_lt_succ h)

/-- Dict subscription succeeds exactly on a successful lookup. -/
theorem getKey_eq_ok {d : Dict} {k : String} {a : NDArray} :
    getKey d k = .ok a ↔ List.lookup k d = some a := by
  cases h : List.lookup k d with
  | none =>
    unfold getKey
    rw [h]
    simp
  | some b =>
    unfold getKey
    rw [h]
    constructor
    · intro hx
      exact congrArg some (Except.ok.inj hx)
    · intro hx
      exact congrArg Except.ok (Option.some.inj hx)

/-- `mapME` succeeds when every element does. -/
theorem mapME_ok_of_forall {α β : Type} (g : α → Except PyErr β) :
    ∀ l : List α, (∀ x ∈ l, ∃ y, g x = .ok y) → ∃ ys, mapME g l = .ok ys := by
  intro l
  induction l with
  | nil => intro _; exact ⟨[], rfl⟩
  | cons x xs ih =>
    intro h
    obtain ⟨y, hy⟩ := h x (List.mem_cons_self x xs)
    obtain ⟨ys, hys⟩ := ih (fun z hz => h z (List.mem_cons_of_mem x hz))
    refine ⟨y :: ys, ?_⟩
    simp only [mapME]
    rw [hy, bindE_ok, hys, bindE_ok]
    rfl

/-- A successful `mapME` maps elementwise. -/
theorem mapME_length_get {α β : Type} (g : α → Except PyErr β) :
    ∀ (l : List α) (l2 : List β), mapME g l = .ok l2 →
      l2.length = l.length ∧
      ∀ i (h1 : i < l.length) (h2 : i < l2.length),
        g (l.get ⟨i, h1⟩) = .ok (l2.get ⟨i, h2⟩) := by
  intro l
  induction l with
  | nil =>
    intro l2 h
    obtain rfl : ([] : List β) = l2 := Except.ok.inj h
    exact ⟨rfl, fun i h1 _ => absurd h1 (Nat.not_lt_zero i)⟩
  | cons x xs ih =>
    intro l2 h
    simp only [mapME] at h
    cases hg : g x with
    | error e =>
      rw [hg, bindE_error] at h
      exact absurd h (fun hc => Except.noConfusion hc)
    | ok y =>
      rw [hg, bindE_ok] at h
      cases hr : mapME g xs with
      | error e =>
        rw [hr, bindE_error] at h
        exact absurd h (fun hc => Except.noConfusion hc)
      | ok ys =>
        rw [hr, bindE_ok] at h
        obtain rfl : y :: ys = l2 := Except.ok.inj h
        obtain ⟨hlen, hget⟩ := ih ys hr
        refine ⟨by simp [hlen], ?_⟩
        intro i h1 h2
        cases i with
        | zero => exact hg
        | succ n => exact hget n (Nat.lt_of_succ_lt_succ h1) (Nat.lt_of_succ_lt_succ h2)

/-- Every entry of a successful key-preserving `mapME` image comes from a
source entry under the same key. -/
theorem mapME_keyed_lookup_rev {β γ : Type} (g : String → β → Except PyErr γ) :
    ∀ (l : List (String × β)) (l2 : List (String × γ)),
      mapME (fun kv => do
        let v ← g kv.1 kv.2
        pure (kv.1, v)) l = .ok l2 →
      ∀ k v2, List.lookup k l2 = some v2 →
        ∃ v, List.lookup k l = some v ∧ g k v = .ok v2 := by
  intro l
  induction l with
  | nil =>
    intro l2 h k v2 hk
    obtain rfl : ([] : List (String × γ)) = l2 := Except.ok.inj h
    simp [List.lookup] at hk
  | cons kv rest ih =>
    intro l2 h k v2 hk
    obtain ⟨k0, v0⟩ := kv
    simp only [mapME] at h
    cases hg : g k0 v0 with
    | error e =>
      rw [hg, bindE_error, bindE_error] at h
      exact absurd h (fun hc => Except.noConfusion hc)
    | ok y =>
      rw [hg, bindE_ok, bindE_pure] at h
      cases hr : mapME (fun kv => do
          let v ← g kv.1 kv.2
          pure (kv.1, v)) rest with
      | error e =>
        rw [hr, bindE_error] at h
        exact absurd h (fun hc => Except.noConfusion hc)
      | ok ys =>
        rw [hr, bindE_ok] at h
        obtain rfl : (k0, y) :: ys = l2 := Except.ok.inj h
        rw [lookup_cons] at hk
        by_cases hkk : k = k0
        · rw [if_pos hkk] at hk
          obtain rfl : y = v2 := Option.some.inj hk
          subst hkk
          exact ⟨v0, by rw [lookup_cons, if_pos rfl], hg⟩
        · rw [if_neg hkk] at hk
          obtain ⟨v, hl, hgv⟩ := ih ys hr k v2 hk
          exact ⟨v, by rw [lookup_cons, if_neg hkk]; exact hl, hgv⟩

/-- Membership of an entry makes the lookup of its key succeed. -/
theorem lookup_isSome_of_mem {β : Type} {k : String} {v : β} {l : List (String × β)}
    (h : (k, v) ∈ l) : ∃ v2, List.lookup k l = some v2 := by
  induction l with
  | nil => cases h
  | cons kv rest ih =>
    rcases List.mem_cons.mp h with heq | h2
    · obtain rfl : kv = (k, v) := heq.symm
      rw [lookup_cons, if_pos rfl]
      exact ⟨v, rfl⟩
    · obtain ⟨k0, v0⟩ := kv
      rw [lookup_cons]
      by_cases hk : k = k0
      · rw [if_pos hk]; exact ⟨v0, rfl⟩
      · rw [if_neg hk]; exact ih h2

/-- An aligned batch holds each key of its first mapping everywhere, with an
equally shaped array. -/
theorem dictsAligned_lookup {d0 : Dict} {rest : List Dict}
    (h : dictsAligned (d0 :: rest) = true) {k : String} {a0 : NDArray}
    (hk : List.lookup k d0 = some a0) :
    ∀ d ∈ d0 :: rest, ∃ a, List.lookup k d = some a ∧ a.shape = a0.shape := by
  intro d hd
  unfold dictsAligned at h
  rw [List.all_eq_true] at h
  have hd2 := h d hd
  rw [List.all_eq_true] at hd2
  have hkv : (match List.lookup k d0, List.lookup k d with
      | some a0, some a => a.shape == a0.shape
      | _, _ => false) = true := hd2 (k, a0) (mem_of_lookup_eq_some hk)
  rw [hk] at hkv
  cases hl : List.lookup k d with
  | none =>
    rw [hl] at hkv
    exact absurd hkv (by simp)
  | some a =>
    rw [hl] at hkv
    have hsh : (a.shape == a0.shape) = true := hkv
    exact ⟨a, rfl, eq_of_beq hsh⟩

/-- `np.stack` on a non-empty batch, by computation. -/
theorem stackArrs_cons (a : NDArray) (rest : List NDArray) :
    stackArrs (a :: rest) =
      if (rest.all fun b => b.shape == a.shape) = true then
        Except.ok (NDArray.mk ((a :: rest).length :: a.shape) (fun ix =>
          match ix with
          | i :: tl => ((a :: rest).getD i dummyArr).val tl
          | [] => 0))
      else Except.error PyErr.valueError := rfl

/-- `np.stack` succeeds on a non-empty batch of equal shapes. -/
theorem stackArrs_exists (a : NDArray) (rest : List NDArray)
    (hsh : ∀ b ∈ rest, b.shape = a.shape) :
    ∃ st, stackArrs (a :: rest) = .ok st := by
  have hcond : rest.all (fun b => b.shape == a.shape) = true :=
    List.all_eq_true.mpr (fun b hb => beq_iff_eq.mpr (hsh b hb))
  exact ⟨_, by rw [stackArrs_cons, hcond, if_pos rfl]⟩

/-- What a successful `np.stack` looks like: a new leading axis of the batch
length, slice `i` being exactly the `i`-th input array. -/
theorem stackArrs_inv : ∀ (arrs : List NDArray) (st : NDArray),
    stackArrs arrs = .ok st →
    st.shape = arrs.length :: st.shape.tail ∧
    ∀ i (hi : i < arrs.length),
      (arrs.get ⟨i, hi⟩).shape = st.shape.tail ∧ indexFirst st i = arrs.get ⟨i, hi⟩ := by
  intro arrs st h
  match arrs with
  | [] => exact absurd h (fun hc => Except.noConfusion hc)
  | a :: rest =>
    rw [stackArrs_cons] at h
    cases hcond : rest.all (fun b => b.shape == a.shape) with
    | false =>
      rw [hcond] at h
      simp at h
    | true =>
      rw [hcond, if_pos rfl] at h
      obtain rfl : (NDArray.mk ((a :: rest).length :: a.shape) (fun ix =>
          match ix with
          | i :: tl => ((a :: rest).getD i dummyArr).val tl
          | [] => 0)) = st := Except.ok.inj h
      refine ⟨rfl, ?_⟩
      intro i hi
      have hshape : (List.get (a :: rest) ⟨i, hi⟩).shape = a.shape := by
        cases i with
        | zero => rfl
        | succ n =>
          have hmem : List.get rest ⟨n, Nat.lt_of_succ_lt_succ hi⟩ ∈ rest :=
            List.get_mem rest _ _
          exact eq_of_beq (List.all_eq_true.mp hcond _ hmem)
      refine ⟨hshape, ?_⟩
      apply NDArray.ext
      · exact hshape.symm
      · funext ix
        show ((a :: rest).getD i dummyArr).val ix = _
        rw [getD_get dummyArr (a :: rest) i hi]

/-- A stacked column exists when the batch is aligned and the key is present
in the first mapping. -/
theorem stackAt_exists (f : EnvOut → Dict) (o0 : EnvOut) (rest : List EnvOut)
    (hal : dictsAligned ((o0 :: rest).map f) = true)
    (k : String) (a0 : NDArray) (hk : List.lookup k (f o0) = some a0) :
    ∃ st, stackAt f (o0 :: rest) k = .ok st := by
  have hal2 : dictsAligned (f o0 :: rest.map f) = true := by
    rw [List.map_cons] at hal
    exact hal
  have hall := dictsAligned_lookup hal2 hk
  obtain ⟨arrs, harrs⟩ := mapME_ok_of_forall (fun o => getKey (f o) k) (o0 :: rest)
    (by
      intro o ho
      obtain ⟨a, ha, _⟩ := hall (f o) (by
        rw [← List.map_cons]
        exact List.mem_map_of_mem f ho)
      exact ⟨a, getKey_eq_ok.mpr ha⟩)
  obtain ⟨hlen, hget⟩ := mapME_length_get _ _ _ harrs
  match arrs, hlen, hget, harrs with
  | [], hlen, _, _ => simp at hlen
  | a1 :: rest1, hlen, hget, harrs =>
    have hshape_all : ∀ i (hi : i < (a1 :: rest1).length),
        (List.get (a1 :: rest1) ⟨i, hi⟩).shape = a0.shape := by
      intro i hi
      have h1 : i < (o0 :: rest).length := by rw [← hlen]; exact hi
      have hlk : List.lookup k (f (List.get (o0 :: rest) ⟨i, h1⟩))
          = some (List.get (a1 :: rest1) ⟨i, hi⟩) := getKey_eq_ok.mp (hget i h1 hi)
      obtain ⟨a, ha, hasha⟩ := hall (f (List.get (o0 :: rest) ⟨i, h1⟩)) (by
        rw [← List.map_cons]
        exact List.mem_map_of_mem f (List.get_mem _ _ _))
      rw [ha] at hlk
      rw [← Option.some.inj hlk]
      exact hasha
    have hsh : ∀ b ∈ rest1, b.shape = a1.shape := by
      intro b hb
      obtain ⟨⟨n, hn⟩, hbn⟩ := List.mem_iff_get.mp hb
      have h1 := hshape_all (n + 1) (Nat.succ_lt_succ hn)
      have h0 := hshape_all 0 (Nat.succ_pos _)
      rw [show List.get (a1 :: rest1) ⟨n + 1, Nat.succ_lt_succ hn⟩
          = List.get rest1 ⟨n, hn⟩ from rfl, hbn] at h1
      rw [show List.get (a1 :: rest1) ⟨0, Nat.succ_pos _⟩ = a1 from rfl] at h0
      exact h1.trans h0.symm
    obtain ⟨st, hst⟩ := stackArrs_exists a1 rest1 hsh
    refine ⟨st, ?_⟩
    unfold stackAt
    rw [harrs, bindE_ok]
    exact hst

/-- A successful stacked column has the batch length as leading dimension
and each slice equal to the corresponding instance's array. -/
theorem stackAt_entry (f : EnvOut → Dict) (outs : List EnvOut) (k : String) (st : NDArray)
    (h : stackAt f outs k = .ok st) :
    st.shape = outs.length :: st.shape.tail ∧
    ∀ i (hi : i < outs.length),
      ∃ a, List.lookup k (f (outs.get ⟨i, hi⟩)) = some a ∧ indexFirst st i = a := by
  unfold stackAt at h
  cases hm : mapME (fun o => getKey (f o) k) outs with
  | error e =>
    rw [hm, bindE_error] at h
    exact absurd h (fun hc => Except.noConfusion hc)
  | ok arrs =>
    rw [hm, bindE_ok] at h
    obtain ⟨hlen, hget⟩ := mapME_length_get _ _ _ hm
    obtain ⟨hshape, hentry⟩ := stackArrs_inv arrs st h
    constructor
    · rw [hlen] at hshape
      exact hshape
    · intro i hi
      have hi2 : i < arrs.length := by rw [hlen]; exact hi
      obtain ⟨_, hix⟩ := hentry i hi2
      exact ⟨arrs.get ⟨i, hi2⟩, getKey_eq_ok.mp (hget i hi hi2), hix⟩

/-- `VecEnv._vectorize_env_outs` on a non-empty batch, by computation. -/
theorem vectorize_env_outs_cons (o0 : EnvOut) (rest : List EnvOut) :
    vectorize_env_outs (o0 :: rest) = (do
      let obsS ← mapME (fun kv => do
          let st ← stackAt (fun o => o.obs) (o0 :: rest) kv.1
          pure (kv.1, st)) o0.obs
      let infoS ← mapME (fun kv => do
          let st ← stackAt (fun o => o.info) (o0 :: rest) kv.1
          pure (kv.1, st)) o0.info
      pure (VecOut.mk obsS ((o0 :: rest).map (fun o => o.reward))
        ((o0 :: rest).map (fun o => o.done)) infoS)) := rfl

/-- `VecEnv._vectorize_env_outs` succeeds on a non-empty aligned batch. -/
theorem vectorize_exists (o0 : EnvOut) (rest : List EnvOut)
    (hobs : dictsAligned ((o0 :: rest).map (fun o => o.obs)) = true)
    (hinfo : dictsAligned ((o0 :: rest).map (fun o => o.info)) = true) :
    ∃ v, vectorize_env_outs (o0 :: rest) = .ok v := by
  obtain ⟨obsS, hm1⟩ := mapME_ok_of_forall (fun kv => do
      let st ← stackAt (fun o => o.obs) (o0 :: rest) kv.1
      pure (kv.1, st)) o0.obs
    (by
      intro kv hkv
      obtain ⟨a0, ha0⟩ := lookup_isSome_of_mem (show (kv.1, kv.2) ∈ o0.obs from hkv)
      obtain ⟨st, hst⟩ := stackAt_exists (fun o => o.obs) o0 rest hobs kv.1 a0 ha0
      refine ⟨(kv.1, st), ?_⟩
      change (stackAt (fun o => o.obs) (o0 :: rest) kv.1 >>= fun st2 => pure (kv.1, st2))
        = Except.ok (kv.1, st)
      rw [hst, bindE_ok]
      rfl)
  obtain ⟨infoS, hm2⟩ := mapME_ok_of_forall (fun kv => do
      let st ← stackAt (fun o => o.info) (o0 :: rest) kv.1
      pure (kv.1, st)) o0.info
    (by
      intro kv hkv
      obtain ⟨a0, ha0⟩ := lookup_isSome_of_mem (show (kv.1, kv.2) ∈ o0.info from hkv)
      obtain ⟨st, hst⟩ := stackAt_exists (fun o => o.info) o0 rest hinfo kv.1 a0 ha0
      refine ⟨(kv.1, st), ?_⟩
      change (stackAt (fun o => o.info) (o0 :: rest) kv.1 >>= fun st2 => pure (kv.1, st2))
        = Except.ok (kv.1, st)
      rw [hst, bindE_ok]
      rfl)
  refine ⟨⟨obsS, (o0 :: rest).map (fun o => o.reward),
    (o0 :: rest).map (fun o => o.done), infoS⟩, ?_⟩
  rw [vectorize_env_outs_cons, hm1, bindE_ok, hm2, bindE_ok]
  rfl

/-- The components of a successful `VecEnv._vectorize_env_outs`: rewards and
dones are the per-instance vectors; every stacked array has the batch length
as leading dimension and slice `i` equal to instance `i`'s array under the
same key. -/
theorem vectorize_entry : ∀ (outs : List EnvOut) (v : VecOut),
    vectorize_env_outs outs = .ok v →
    v.reward = outs.map (fun o => o.reward) ∧
    v.done = outs.map (fun o => o.done) ∧
    (∀ k st, List.lookup k v.obs = some st →
      st.shape = outs.length :: st.shape.tail ∧
      ∀ i (hi : i < outs.length),
        ∃ a, List.lookup k (outs.get ⟨i, hi⟩).obs = some a ∧ indexFirst st i = a) ∧
    (∀ k st, List.lookup k v.info = some st →
      st.shape = outs.length :: st.shape.tail ∧
      ∀ i (hi : i < outs.length),
        ∃ a, List.lookup k (outs.get ⟨i, hi⟩).info = some a ∧ indexFirst st i = a) := by
  intro outs v h
  match outs with
  | [] => exact absurd h (fun hc => Except.noConfusion hc)
  | o0 :: rest =>
    rw [vectorize_env_outs_cons] at h
    cases hm1 : mapME (fun kv => do
        let st ← stackAt (fun o => o.obs) (o0 :: rest) kv.1
        pure (kv.1, st)) o0.obs with
    | error e =>
      rw [hm1, bindE_error] at h
      exact absurd h (fun hc => Except.noConfusion hc)
    | ok obsS =>
      rw [hm1, bindE_ok] at h
      cases hm2 : mapME (fun kv => do
          let st ← stackAt (fun o => o.info) (o0 :: rest) kv.1
          pure (kv.1, st)) o0.info with
      | error e =>
        rw [hm2, bindE_error] at h
        exact absurd h (fun hc => Except.noConfusion hc)
      | ok infoS =>
        rw [hm2, bindE_ok] at h
        obtain rfl : (⟨obsS, (o0 :: rest).map (fun o => o.reward),
            (o0 :: rest).map (fun o => o.done), infoS⟩ : VecOut) = v := Except.ok.inj h
        refine ⟨rfl, rfl, ?_, ?_⟩
        · intro k st hst
          obtain ⟨a0, _, hstak⟩ := mapME_keyed_lookup_rev
            (fun k _ => stackAt (fun o => o.obs) (o0 :: rest) k) o0.obs obsS hm1 k st hst
          exact stackAt_entry (fun o => o.obs) (o0 :: rest) k st hstak
        · intro k st hst
          obtain ⟨a0, _, hstak⟩ := mapME_keyed_lookup_rev
            (fun k _ => stackAt (fun o => o.info) (o0 :: rest) k) o0.info infoS hm2 k st hst
          exact stackAt_entry (fun o => o.info) (o0 :: rest) k st hstak

/-- The selective-update loop on fully recorded caches never raises and
produces the pointwise selection. -/
theorem vecSelect_map_some : ∀ (ls fs : List EnvOut), ls.length = fs.length →
    vecSelect (ls.map some) fs =
      .ok (List.zipWith (fun l f => if l.done then f else l) ls fs) := by
  intro ls
  induction ls with
  | nil => intro fs _; rfl
  | cons l ls ih =>
    intro fs h
    cases fs with
    | nil => simp at h
    | cons f fs =>
      have h2 : ls.length = fs.length := by simpa using h
      show vecSelect (some l :: ls.map some) (f :: fs) = _
      unfold vecSelect
      rw [ih fs h2, bindE_ok]
      rfl

/-- `VecEnv.step` steps as many instances as it owns. -/
theorem vecStepOuts_length (stepFns : List (Dict → EnvOut)) (action : Dict) :
    (vecStepOuts stepFns action).length = stepFns.length := by
  simp [vecStepOuts]

/-- Instance `i` of `VecEnv.step` is stepped on slice `i` of the batched
action. -/
theorem vecStepOuts_get (stepFns : List (Dict → EnvOut)) (action : Dict)
    (i : Nat) (hi : i < stepFns.length) (hi2 : i < (vecStepOuts stepFns action).length) :
    (vecStepOuts stepFns action).get ⟨i, hi2⟩ =
      (stepFns.get ⟨i, hi⟩) (sliceAction action i) := by
  unfold vecStepOuts
  rw [List.get_map, List.get_range]
  rw [getD_get _ stepFns i hi]

/-- `getD` of the selection `zipWith`, pointwise. -/
theorem zipWith_sel_getD :
    ∀ (lastOuts freshOuts : List EnvOut) (i : Nat)
      (hi : i < lastOuts.length) (hif : i < freshOuts.length),
      (List.zipWith (fun l f => if l.done then f else l) lastOuts freshOuts).getD
          i envOutDefault =
        if (lastOuts.get ⟨i, hi⟩).done then freshOuts.get ⟨i, hif⟩
        else lastOuts.get ⟨i, hi⟩ := by
  intro lastOuts
  induction lastOuts with
  | nil => intro fs i hi _; exact absurd hi (Nat.not_lt_zero i)
  | cons l ls ih =>
    intro fs i hi hif
    cases fs with
    | nil => exact absurd hif (Nat.not_lt_zero i)
    | cons f fs =>
      cases i with
      | zero => rfl
      | succ n =>
        exact ih fs n (Nat.lt_of_succ_lt_succ hi) (Nat.lt_of_succ_lt_succ hif)

/-! ## Claim C3: selective reset of the vectorizer -/

/-- C3: with one prior recorded result per instance, an unforced
`VecEnv.reset` replaces exactly the cached results whose done flag was set
by the fresh reset results and stacks the selection: instance `i` of what is
stacked is the fresh result when done was set and the unchanged cached tuple
otherwise, and every component of the returned stacked result at batch index
`i` — reward, done, every observation array, every info array — equals the
corresponding component of the cached tuple when done was not set. -/
theorem c3_selective_reset (lastOuts freshOuts : List EnvOut)
    (hlen : lastOuts.length = freshOuts.length) :
    vecReset false (lastOuts.map some) freshOuts =
      vectorize_env_outs
        (List.zipWith (fun l f => if l.done then f else l) lastOuts freshOuts) ∧
    (∀ i (hi : i < lastOuts.length) (hif : i < freshOuts.length),
      (List.zipWith (fun l f => if l.done then f else l) lastOuts freshOuts).getD
          i envOutDefault =
        if (lastOuts.get ⟨i, hi⟩).done then freshOuts.get ⟨i, hif⟩
        else lastOuts.get ⟨i, hi⟩) ∧
    (∀ v, vectorize_env_outs
        (List.zipWith (fun l f => if l.done then f else l) lastOuts freshOuts) = .ok v →
      ∀ i (hi : i < lastOuts.length), (lastOuts.get ⟨i, hi⟩).done = false →
        v.reward.getD i 0 = (lastOuts.get ⟨i, hi⟩).reward ∧
        v.done.getD i true = (lastOuts.get ⟨i, hi⟩).done ∧
        (∀ k st, List.lookup k v.obs = some st →
          ∃ a, List.lookup k (lastOuts.get ⟨i, hi⟩).obs = some a ∧
            indexFirst st i = a) ∧
        (∀ k st, List.lookup k v.info = some st →
          ∃ a, List.lookup k (lastOuts.get ⟨i, hi⟩).info = some a ∧
            indexFirst st i = a)) := by
  have hzlen : (List.zipWith (fun l f => if l.done then f else l)
      lastOuts freshOuts).length = lastOuts.length := by
    rw [List.length_zipWith, hlen, Nat.min_self]
  refine ⟨?_, ?_, ?_⟩
  · unfold vecReset
    rw [if_neg Bool.false_ne_true]
    rw [vecSelect_map_some lastOuts freshOuts hlen, bindE_ok]
  · intro i hi hif
    exact zipWith_sel_getD lastOuts freshOuts i hi hif
  · intro v hv i hi hdone
    obtain ⟨hrew, hdonev, hobsE, hinfoE⟩ := vectorize_entry _ v hv
    have hif : i < freshOuts.length := by rw [← hlen]; exact hi
    have hzi : i < (List.zipWith (fun l f => if l.done then f else l)
        lastOuts freshOuts).length := by rw [hzlen]; exact hi
    have hzget : (List.zipWith (fun l f => if l.done then f else l)
        lastOuts freshOuts).get ⟨i, hzi⟩ = lastOuts.get ⟨i, hi⟩ := by
      rw [← getD_get envOutDefault _ i hzi]
      rw [zipWith_sel_getD lastOuts freshOuts i hi hif]
      rw [hdone, if_neg Bool.false_ne_true]
    refine ⟨?_, ?_, ?_, ?_⟩
    · rw [hrew]
      rw [getD_get 0 _ i (by rw [List.length_map]; exact hzi)]
      rw [List.get_map, hzget]
    · rw [hdonev]
      rw [getD_get true _ i (by rw [List.length_map]; exact hzi)]
      rw [List.get_map, hzget]
    · intro k st hst
      obtain ⟨_, hE⟩ := hobsE k st hst
      obtain ⟨a, ha, hix⟩ := hE i hzi
      rw [hzget] at ha
      exact ⟨a, ha, hix⟩
    · intro k st hst
      obtain ⟨_, hE⟩ := hinfoE k st hst
      obtain ⟨a, ha, hix⟩ := hE i hzi
      rw [hzget] at ha
      exact ⟨a, ha, hix⟩

/-- Observation arrays for the C3 witness. -/
def arrDoneW3 : NDArray := ⟨[1], fun _ => 10⟩

/-- Observation array of the cached, not-done instance for the C3 witness. -/
def arrStayW3 : NDArray := ⟨[1], fun _ => 20⟩

/-- Fresh observation arrays for the C3 witness. -/
def arrFreshW3 : NDArray := ⟨[1], fun _ => 30⟩

/-- Cached result of instance 0 (done) for the C3 witness. -/
def lastDoneW3 : EnvOut := ⟨[("a", arrDoneW3)], 1, true, []⟩

/-- Cached result of instance 1 (not done) for the C3 witness. -/
def lastStayW3 : EnvOut := ⟨[("a", arrStayW3)], 2, false, []⟩

/-- Fresh reset results for the C3 witness. -/
def freshW3 : EnvOut := ⟨[("a", arrFreshW3)], 3, false, []⟩

/-- Cached results list for the C3 witness. -/
def lastOutsW3 : List EnvOut := [lastDoneW3, lastStayW3]

/-- Fresh results list for the C3 witness. -/
def freshOutsW3 : List EnvOut := [freshW3, freshW3]

/-- The selection the C3 witness stacks. -/
def selW3 : List EnvOut :=
  List.zipWith (fun l f => if l.done then f else l) lastOutsW3 freshOutsW3

/-- C3 witness: on two concrete instances — one done, one not — the unforced
reset stacks the fresh result for the done instance and the unchanged cached
tuple for the other, whose stacked reward, done flag and observation slice
all equal the cached ones. -/
theorem c3_selective_reset_witness :
    lastOutsW3.length = freshOutsW3.length ∧
    vecReset false (lastOutsW3.map some) freshOutsW3 = vectorize_env_outs selW3 ∧
    selW3.getD 1 envOutDefault = lastOutsW3.get ⟨1, by decide⟩ ∧
    selW3.getD 0 envOutDefault = freshOutsW3.get ⟨0, by decide⟩ ∧
    (exOk (vectorize_env_outs selW3) vecOutDefault).reward.getD 1 0 =
      (lastOutsW3.get ⟨1, by decide⟩).reward ∧
    (exOk (vectorize_env_outs selW3) vecOutDefault).done.getD 1 true =
      (lastOutsW3.get ⟨1, by decide⟩).done ∧
    indexFirst ((List.lookup "a"
      (exOk (vectorize_env_outs selW3) vecOutDefault).obs).getD dummyArr) 1 = arrStayW3 := by
  have hc3 := c3_selective_reset lastOutsW3 freshOutsW3 rfl
  have hv : vectorize_env_outs selW3 =
      .ok (exOk (vectorize_env_outs selW3) vecOutDefault) := rfl
  have hpart := hc3.2.2 (exOk (vectorize_env_outs selW3) vecOutDefault) hv 1 (by decide) rfl
  refine ⟨rfl, hc3.1, ?_, ?_, hpart.1, hpart.2.1, ?_⟩
  · unfold selW3
    rw [hc3.2.1 1 (by decide) (by decide)]
    rfl
  · unfold selW3
    rw [hc3.2.1 0 (by decide) (by decide)]
    rfl
  · obtain ⟨a, ha, hix⟩ := hpart.2.2.1 "a"
      ((List.lookup "a" (exOk (vectorize_env_outs selW3) vecOutDefault).obs).getD dummyArr)
      rfl
    have haa : a = arrStayW3 := by
      have hlook : List.lookup "a" (lastOutsW3.get ⟨1, by decide⟩).obs = some arrStayW3 := rfl
      rw [hlook] at ha
      exact (Option.some.inj ha).symm
    rw [hix, haa]

/-! ## Claim C4: stacking of the vectorized step -/

/-- C4 (amended): for a non-empty vectorizer whose per-instance step results
have aligned observation and info mappings (each key of instance 0 present
everywhere with one shape), `VecEnv.step` succeeds; the reward and done
vectors have length N with entry `i` from stepping instance `i` alone on
slice `i` of the batched action, and every stacked observation/info array
has leading dimension exactly N with slice `i` equal to the array instance
`i` alone would produce. -/
theorem c4_vec_step (stepFns : List (Dict → EnvOut)) (action : Dict)
    (hne : stepFns ≠ [])
    (hobs : dictsAligned ((vecStepOuts stepFns action).map (fun o => o.obs)) = true)
    (hinfo : dictsAligned ((vecStepOuts stepFns action).map (fun o => o.info)) = true) :
    ∃ v, vecStep stepFns action = .ok v ∧
      v.reward.length = stepFns.length ∧
      v.done.length = stepFns.length ∧
      (∀ i (hi : i < stepFns.length),
        v.reward.getD i 0 = ((stepFns.get ⟨i, hi⟩) (sliceAction action i)).reward ∧
        v.done.getD i true = ((stepFns.get ⟨i, hi⟩) (sliceAction action i)).done) ∧
      (∀ k st, List.lookup k v.obs = some st →
        st.shape = stepFns.length :: st.shape.tail ∧
        ∀ i (hi : i < stepFns.length),
          ∃ a, List.lookup k ((stepFns.get ⟨i, hi⟩) (sliceAction action i)).obs = some a ∧
            indexFirst st i = a) ∧
      (∀ k st, List.lookup k v.info = some st →
        st.shape = stepFns.length :: st.shape.tail ∧
        ∀ i (hi : i < stepFns.length),
          ∃ a, List.lookup k ((stepFns.get ⟨i, hi⟩) (sliceAction action i)).info = some a ∧
            indexFirst st i = a) := by
  have hlen := vecStepOuts_length stepFns action
  cases houts : vecStepOuts stepFns action with
  | nil =>
    rw [houts] at hlen
    exact absurd (List.length_eq_zero.mp hlen.symm) hne
  | cons o0 rest =>
    rw [houts] at hobs hinfo hlen
    obtain ⟨v, hv⟩ := vectorize_exists o0 rest hobs hinfo
    obtain ⟨hrew, hdonev, hobsE, hinfoE⟩ := vectorize_entry (o0 :: rest) v hv
    have hstep : vecStep stepFns action = .ok v := by
      unfold vecStep
      rw [houts]
      exact hv
    have hgetq : ∀ i (hi : i < stepFns.length) (hi2 : i < (o0 :: rest).length),
        (o0 :: rest).get ⟨i, hi2⟩ = (stepFns.get ⟨i, hi⟩) (sliceAction action i) := by
      intro i hi hi2
      rw [← getD_get envOutDefault (o0 :: rest) i hi2]
      rw [← houts]
      have hi3 : i < (vecStepOuts stepFns action).length := by
        rw [vecStepOuts_length]; exact hi
      rw [getD_get envOutDefault _ i hi3]
      exact vecStepOuts_get stepFns action i hi hi3
    refine ⟨v, hstep, ?_, ?_, ?_, ?_, ?_⟩
    · rw [hrew, List.length_map, hlen]
    · rw [hdonev, List.length_map, hlen]
    · intro i hi
      have hi2 : i < (o0 :: rest).length := by rw [hlen]; exact hi
      constructor
      · rw [hrew]
        rw [getD_get 0 _ i (by rw [List.length_map]; exact hi2)]
        rw [List.get_map, hgetq i hi hi2]
      · rw [hdonev]
        rw [getD_get true _ i (by rw [List.length_map]; exact hi2)]
        rw [List.get_map, hgetq i hi hi2]
    · intro k st hst
      obtain ⟨hsh, hE⟩ := hobsE k st hst
      rw [hlen] at hsh
      refine ⟨hsh, ?_⟩
      intro i hi
      have hi2 : i < (o0 :: rest).length := by rw [hlen]; exact hi
      obtain ⟨a, ha, hix⟩ := hE i hi2
      rw [hgetq i hi hi2] at ha
      exact ⟨a, ha, hix⟩
    · intro k st hst
      obtain ⟨hsh, hE⟩ := hinfoE k st hst
      rw [hlen] at hsh
      refine ⟨hsh, ?_⟩
      intro i hi
      have hi2 : i < (o0 :: rest).length := by rw [hlen]; exact hi
      obtain ⟨a, ha, hix⟩ := hE i hi2
      rw [hgetq i hi hi2] at ha
      exact ⟨a, ha, hix⟩

/-- First instance of the C4 counterexample: observation `"a"` of shape
`[1]`. -/
def f1CE : Dict → EnvOut := fun _ => ⟨[("a", ⟨[1], fun _ => 0⟩)], 0, false, []⟩

/-- Second instance of the C4 counterexample: observation `"a"` of shape
`[2]`. -/
def f2CE : Dict → EnvOut := fun _ => ⟨[("a", ⟨[2], fun _ => 0⟩)], 0, false, []⟩

/-- C4 counterexample: two instances with identical observation and info key
sets whose arrays differ in shape make `VecEnv.step` raise inside `np.stack`
instead of returning stacked outputs with leading dimension 2. -/
theorem c4_vec_step_counterexample :
    ((vecStepOuts [f1CE, f2CE] []).map (fun o => o.obs.map Prod.fst)) = [["a"], ["a"]] ∧
    ((vecStepOuts [f1CE, f2CE] []).map (fun o => o.info.map Prod.fst))
      = ([[], []] : List (List String)) ∧
    vecStep [f1CE, f2CE] [] = Except.error PyErr.valueError :=
  ⟨rfl, rfl, rfl⟩

/-- First instance of the C4 witness. -/
def g1W4 : Dict → EnvOut := fun _ => ⟨[("x", ⟨[3], fun _ => 1⟩)], 1, false, []⟩

/-- Second instance of the C4 witness. -/
def g2W4 : Dict → EnvOut := fun _ => ⟨[("x", ⟨[3], fun _ => 2⟩)], 2, true, []⟩

/-- C4 witness: two concrete aligned instances are stepped and stacked, with
batch-length vectors and entry 1 equal to what instance 1 alone produces. -/
theorem c4_vec_step_witness :
    ([g1W4, g2W4] : List (Dict → EnvOut)) ≠ [] ∧
    dictsAligned ((vecStepOuts [g1W4, g2W4] []).map (fun o => o.obs)) = true ∧
    dictsAligned ((vecStepOuts [g1W4, g2W4] []).map (fun o => o.info)) = true ∧
    exIsOk (vecStep [g1W4, g2W4] []) = true ∧
    (exOk (vecStep [g1W4, g2W4] []) vecOutDefault).reward.length = 2 ∧
    (exOk (vecStep [g1W4, g2W4] []) vecOutDefault).done.length = 2 ∧
    (exOk (vecStep [g1W4, g2W4] []) vecOutDefault).reward.getD 1 0 =
      (g2W4 (sliceAction [] 1)).reward ∧
    (exOk (vecStep [g1W4, g2W4] []) vecOutDefault).done.getD 1 true =
      (g2W4 (sliceAction [] 1)).done := by
  obtain ⟨v, hv, hr, hd, hrd, _, _⟩ :=
    c4_vec_step [g1W4, g2W4] [] (List.cons_ne_nil _ _) rfl rfl
  have hvx : exOk (vecStep [g1W4, g2W4] []) vecOutDefault = v := by
    rw [hv]
    rfl
  refine ⟨List.cons_ne_nil _ _, rfl, rfl, by rw [hv]; rfl, ?_, ?_, ?_, ?_⟩
  · rw [hvx]; exact hr
  · rw [hvx]; exact hd
  · rw [hvx]; exact (hrd 1 (by decide)).1
  · rw [hvx]; exact (hrd 1 (by decide)).2

/-! ## Claim C10: unforced reset before any recorded result -/

/-- C10: on a freshly constructed vectorizer with at least one instance —
every cached result still the empty tuple — an unforced reset fails with the
out-of-bounds read of the done flag. -/
theorem c10_unforced_reset_before_any_result (n : Nat) (hn : 1 ≤ n)
    (fresh : List EnvOut) :
    vecReset false (vecInitLastOuts n) fresh = Except.error PyErr.indexError := by
  cases n with
  | zero => exact absurd hn (by omega)
  | succ m => rfl

/-- C10 witness: the failure at a concrete fresh vectorizer of two
instances. -/
theorem c10_unforced_reset_before_any_result_witness :
    1 ≤ 2 ∧ vecReset false (vecInitLastOuts 2) [] = Except.error PyErr.indexError :=
  ⟨by decide, c10_unforced_reset_before_any_result 2 (by decide) []⟩

end LuxWrappers
